import Mathlib

/-!
Verification of the VRPTW route-construction subsystem of the vrptw-workflow
repository (src/app/tabs/vrptw_tab.py) against its natural-language
specification.  The Python code is shallowly embedded: CSV cells are strings,
Python ints are `Int`/`Nat`, Python floats appearing in exact integer/rational
positions are `Rat`, and the floating-point trigonometry of the haversine
distance is modelled over the real numbers.  Python exceptions are modelled
with `Except Unit`; Python `None` with `Option`.
-/

namespace Vrptw

/-- Python's builtin `round` with no digits argument: banker's rounding,
ties go to the even integer.  Used by the source at lines 610 and 642 of
vrptw_tab.py (`int(round(...))`). -/
def pyRound {α : Type} [LinearOrderedField α] [FloorRing α] (x : α) : ℤ :=
  let f := ⌊x⌋
  if x - f < 1 / 2 then f
  else if (1 / 2 : α) < x - f then f + 1
  else if f % 2 = 0 then f else f + 1

/-- Python's `int(...)` applied to a float/rational: truncation toward zero. -/
def qTrunc (q : ℚ) : ℤ := if 0 ≤ q then ⌊q⌋ else ⌈q⌉

/-! ### The time matrix (vrptw_tab.py lines 644-657)

The source builds `time_matrix` as a Python list of lists, initialised to all
zeros and then filled by nested loops.  We embed it as a `List (List ℤ)` with
an update function `matSet` (Python `m[i][j] = v`) and a read function
`getCell` (out-of-range reads default to 0; the source never reads out of
range). -/

/-- Read entry (i, j) of a list-of-lists matrix, defaulting to 0. -/
def getCell (m : List (List ℤ)) (i j : ℕ) : ℤ := (m.getD i []).getD j 0

/-- Python `m[i][j] = v` on a list-of-lists matrix. -/
def matSet (m : List (List ℤ)) (i j : ℕ) (v : ℤ) : List (List ℤ) :=
  m.set i ((m.getD i []).set j v)

/-- The inner loop of lines 650-654 over the first k columns:
`time_matrix[i+1][j+1] = travel_min(i, j) + svc_min[i]` for j < k. -/
def innerPass (travel : ℕ → ℕ → ℤ) (svc : List ℤ) (i k : ℕ)
    (m : List (List ℤ)) : List (List ℤ) :=
  (List.range k).foldl
    (fun mm j => matSet mm (i + 1) (j + 1) (travel i j + svc.getD i 0)) m

/-- One iteration of the outer loop (lines 650-656): fill row i+1 for the
n site columns, then `time_matrix[i+1][0] = svc_min[i]`. -/
def rowPass (travel : ℕ → ℕ → ℤ) (svc : List ℤ) (n i : ℕ)
    (m : List (List ℤ)) : List (List ℤ) :=
  matSet (innerPass travel svc i n m) (i + 1) 0 (svc.getD i 0)

/-- The outer loop over the first k sites, starting from matrix m. -/
def outerPass (travel : ℕ → ℕ → ℤ) (svc : List ℤ) (n k : ℕ)
    (m : List (List ℤ)) : List (List ℤ) :=
  (List.range k).foldl (fun mm i => rowPass travel svc n i mm) m

/-- Lines 644-657 of vrptw_tab.py: build the (n+1) x (n+1) time matrix.
`time_matrix = [[0]*size for _ in range(size)]`, then for each site i
(matrix row i+1): `time_matrix[i+1][j+1] = travel_min(i, j) + svc_min[i]`
for every j, and `time_matrix[i+1][0] = svc_min[i]`.  Row 0 (depot) is
never written and stays all zero. -/
def buildTimeMatrix (n : ℕ) (travel : ℕ → ℕ → ℤ) (svc : List ℤ) : List (List ℤ) :=
  outerPass travel svc n n
    (List.replicate (n + 1) (List.replicate (n + 1) (0 : ℤ)))

/-! ### Python string helpers used by save/load (lines 925 and 968) -/

/-- Characters removed by Python `str.strip()`. -/
def isPySpace (c : Char) : Bool :=
  c = ' ' || c = '\t' || c = '\n' || c = '\r' || c = '\x0b' || c = '\x0c'

/-- Python `str.strip()` on a character list. -/
def pyStripChars (s : List Char) : List Char :=
  ((s.dropWhile isPySpace).reverse.dropWhile isPySpace).reverse

/-- Python `str.split(",")` on a character list: split at every comma,
keeping empty groups (so the result is always non-empty; a non-comma
character is prepended to the first group of the tail's split). -/
def splitCommaChars : List Char → List (List Char)
  | [] => [[]]
  | c :: cs =>
    if c = ',' then [] :: splitCommaChars cs
    else (splitCommaChars cs).modifyHead (fun g => c :: g)

/-- Python `",".join(ids)` on character lists. -/
def joinCommaChars : List (List Char) → List Char
  | [] => []
  | [g] => g
  | g :: rest => g ++ ',' :: joinCommaChars rest

/-- Line 925 of vrptw_tab.py: `",".join(seq_ids)`. -/
def joinSeqStr (ids : List String) : String :=
  ⟨joinCommaChars (ids.map String.data)⟩

/-- Line 968 of vrptw_tab.py:
`[s.strip() for s in sequence.split(",") if s.strip()]`. -/
def splitSeqStr (s : String) : List String :=
  ((((splitCommaChars s.data).map pyStripChars).filter
      (fun g => !g.isEmpty)).map (fun g => (⟨g⟩ : String)))

/-! ### Decimal numerals: Python `str(n)` for a nonnegative int, and
Python `int(s)` parsing (used when the solution file is written/reloaded). -/

/-- The decimal digit character for d (d assumed < 10; 9 otherwise). -/
def digitChar (d : ℕ) : Char :=
  match d with
  | 0 => '0' | 1 => '1' | 2 => '2' | 3 => '3' | 4 => '4'
  | 5 => '5' | 6 => '6' | 7 => '7' | 8 => '8' | _ => '9'

/-- Numeric value of a decimal digit character. -/
def digitVal (c : Char) : Option ℕ :=
  if c = '0' then some 0 else if c = '1' then some 1
  else if c = '2' then some 2 else if c = '3' then some 3
  else if c = '4' then some 4 else if c = '5' then some 5
  else if c = '6' then some 6 else if c = '7' then some 7
  else if c = '8' then some 8 else if c = '9' then some 9 else none

/-- Decimal representation of a natural number (Python `str(n)`). -/
def natToChars (n : ℕ) : List Char :=
  if _h : n < 10 then [digitChar n]
  else natToChars (n / 10) ++ [digitChar (n % 10)]
decreasing_by exact Nat.div_lt_self (by omega) (by omega)

/-- Accumulate decimal digits left to right; fails on a non-digit. -/
def parseDigitsAux : List Char → ℕ → Option ℕ
  | [], acc => some acc
  | c :: cs, acc =>
    match digitVal c with
    | some d => parseDigitsAux cs (acc * 10 + d)
    | none => none

/-- A non-empty all-digit numeral. -/
def parseDigitsList (l : List Char) : Option ℕ :=
  if l.isEmpty then none else parseDigitsAux l 0

/-- The body of Python `int(s)` after stripping: optional sign, then a
non-empty run of decimal digits; anything else raises (here: `none`). -/
def parsePyIntChars : List Char → Option ℤ
  | [] => none
  | c :: rest =>
    if c = '-' then (parseDigitsList rest).map (fun n => -(n : ℤ))
    else if c = '+' then (parseDigitsList rest).map (fun n => (n : ℤ))
    else (parseDigitsList (c :: rest)).map (fun n => (n : ℤ))

/-- Python `int(s)` on a string: strip whitespace, then parse. -/
def parsePyInt (s : String) : Option ℤ :=
  parsePyIntChars (pyStripChars s.data)

instance {α β : Type} [DecidableEq α] [DecidableEq β] :
    DecidableEq (Except α β) := fun a b =>
  match a, b with
  | .error x, .error y =>
    if h : x = y then .isTrue (by rw [h])
    else .isFalse (fun hc => h (Except.error.inj hc))
  | .error _, .ok _ => .isFalse (fun hc => Except.noConfusion hc)
  | .ok _, .error _ => .isFalse (fun hc => Except.noConfusion hc)
  | .ok x, .ok y =>
    if h : x = y then .isTrue (by rw [h])
    else .isFalse (fun hc => h (Except.ok.inj hc))

/-! ### Cluster filtering (vrptw_tab.py lines 591-597)

`rows = [row for row in reader if cid_idx < len(row) and row[cid_idx] != ""
and int(float(row[cid_idx])) == int(cluster_id)]`.

Python `float(cell)` is modelled by an abstract parser
`parse : String → Option ℚ` (its failure raises `ValueError`, aborting the
whole comprehension, hence the `Except` result). -/

/-- The pure inclusion test of the comprehension, valid when every parse
that the comprehension attempts succeeds. -/
def includeRow (parse : String → Option ℚ) (cidIdx : ℕ) (c : ℤ)
    (row : List String) : Bool :=
  if h : cidIdx < row.length then
    if row.get ⟨cidIdx, h⟩ = "" then false
    else
      match parse (row.get ⟨cidIdx, h⟩) with
      | some q => qTrunc q = c
      | none => false
  else false

/-- The comprehension itself: rows are scanned in order; a non-empty
cluster cell that fails to parse raises `ValueError`. -/
def filterCluster (parse : String → Option ℚ) (cidIdx : ℕ) (c : ℤ) :
    List (List String) → Except Unit (List (List String))
  | [] => .ok []
  | row :: rest =>
    if h : cidIdx < row.length then
      if row.get ⟨cidIdx, h⟩ = "" then filterCluster parse cidIdx c rest
      else
        match parse (row.get ⟨cidIdx, h⟩) with
        | none => .error ()
        | some q =>
          match filterCluster parse cidIdx c rest with
          | .error e => .error e
          | .ok l => .ok (if qTrunc q = c then row :: l else l)
    else filterCluster parse cidIdx c rest

/-! ### Per-site vectors (vrptw_tab.py lines 603-621) -/

/-- `float(rows[i][idx])`: an out-of-range index raises `IndexError`, an
unparseable cell raises `ValueError`. -/
def parseCellAt (parse : String → Option ℚ) (idx : ℕ) (row : List String) :
    Except Unit ℚ :=
  match row.get? idx with
  | none => .error ()
  | some cell =>
    match parse cell with
    | none => .error ()
    | some q => .ok q

/-- `[float(rows[i][idx]) for i in range(n)]`. -/
def buildCoords (parse : String → Option ℚ) (idx : ℕ) :
    List (List String) → Except Unit (List ℚ)
  | [] => .ok []
  | row :: rest =>
    match parseCellAt parse idx row with
    | .error _ => .error ()
    | .ok q =>
      match buildCoords parse idx rest with
      | .error _ => .error ()
      | .ok qs => .ok (q :: qs)

/-- Lines 605-608: `rows[i][id_idx] if id_idx is not None and
rows[i][id_idx] != "" else str(i)` (indexing may raise `IndexError`). -/
def idOfRow (idIdx : Option ℕ) (i : ℕ) (row : List String) :
    Except Unit String :=
  match idIdx with
  | none => .ok ⟨natToChars i⟩
  | some k =>
    match row.get? k with
    | none => .error ()
    | some cell => .ok (if cell = "" then ⟨natToChars i⟩ else cell)

/-- The `ids` list of lines 605-608, sites numbered from `i`. -/
def buildIdsAux (idIdx : Option ℕ) : ℕ → List (List String) → Except Unit (List String)
  | _, [] => .ok []
  | i, row :: rest =>
    match idOfRow idIdx i row with
    | .error _ => .error ()
    | .ok s =>
      match buildIdsAux idIdx (i + 1) rest with
      | .error _ => .error ()
      | .ok ss => .ok (s :: ss)

/-- The `ids` list of lines 605-608. -/
def buildIds (idIdx : Option ℕ) (rows : List (List String)) :
    Except Unit (List String) :=
  buildIdsAux idIdx 0 rows

/-- Lines 609-621, one site:
`int(round((float(rows[i][svc_idx]) if svc_idx is not None and
rows[i][svc_idx] != "" else default_service_h) * 60))`. -/
def svcOfRow (parse : String → Option ℚ) (svcIdx : Option ℕ) (defaultH : ℚ)
    (row : List String) : Except Unit ℤ :=
  match svcIdx with
  | none => .ok (pyRound (defaultH * 60))
  | some k =>
    match row.get? k with
    | none => .error ()
    | some cell =>
      if cell = "" then .ok (pyRound (defaultH * 60))
      else
        match parse cell with
        | none => .error ()
        | some q => .ok (pyRound (q * 60))

/-- The `svc_min` list of lines 609-621. -/
def buildSvc (parse : String → Option ℚ) (svcIdx : Option ℕ) (defaultH : ℚ) :
    List (List String) → Except Unit (List ℤ)
  | [] => .ok []
  | row :: rest =>
    match svcOfRow parse svcIdx defaultH row with
    | .error _ => .error ()
    | .ok v =>
      match buildSvc parse svcIdx defaultH rest with
      | .error _ => .error ()
      | .ok vs => .ok (v :: vs)

/-! ### GeoDistance (vrptw_tab.py lines 623-642)

The Python floating-point trigonometry is modelled over the reals. -/

/-- Python `math.atan2 y x`. -/
noncomputable def atan2 (y x : ℝ) : ℝ :=
  if 0 < x then Real.arctan (y / x)
  else if x = 0 then
    (if 0 < y then Real.pi / 2 else if y < 0 then -(Real.pi / 2) else 0)
  else if 0 ≤ y then Real.arctan (y / x) + Real.pi
  else Real.arctan (y / x) - Real.pi

/-- Lines 624-634: haversine great-circle distance in miles between sites
i and j, Earth radius 3958.7613 mi. -/
noncomputable def havMiles (lats lons : ℕ → ℝ) (i j : ℕ) : ℝ :=
  let earthR : ℝ := 3958.7613
  let p := Real.pi / 180
  let dlat := (lats j - lats i) * p
  let dlon := (lons j - lons i) * p
  let a := Real.sin (dlat / 2) ^ 2 +
    Real.cos (lats i * p) * Real.cos (lats j * p) * Real.sin (dlon / 2) ^ 2
  let c := 2 * atan2 (Real.sqrt a) (Real.sqrt (1 - a))
  earthR * c

/-- Lines 636-642: `travel_min(i, j)`; 0 on the diagonal, otherwise
`int(round(miles / max(1e-6, speed_mph) * 60))`. -/
noncomputable def travelMin (speed : ℝ) (lats lons : ℕ → ℝ) (i j : ℕ) : ℤ :=
  if i = j then 0
  else pyRound (havMiles lats lons i j / max 0.000001 speed * 60)

/-! ### RouteSolver model (vrptw_tab.py lines 665-726)

The OR-Tools engine is an external library treated as opaque.  Modelled from
the spec: a solution returned by `routing.SolveWithParameters` is any
assignment of the site nodes 1..n to vehicle routes that satisfies the
constraints the code registers — every site node visited exactly once
(OR-Tools default, no disjunctions are added), and for each route a family
of `Time`-dimension cumul variables starting at 0 with zero slack
(`cumul(k+1) = cumul(k) + M[node k][node k+1]`) each constrained to
`[0, horizon]` with `horizon = 480` (lines 680-694). -/

/-- A vehicle route as the node path actually driven: depot, the visited
site nodes in order, depot. -/
def nodePath (r : List ℕ) : List ℕ := 0 :: r ++ [0]

/-- The running sum of consecutive time-matrix entries along a node path:
the cumulative elapsed time at the k-th node of the path. -/
def cumulAt (M : ℕ → ℕ → ℤ) (path : List ℕ) : ℕ → ℤ
  | 0 => 0
  | k + 1 => cumulAt M path k + M (path.getD k 0) (path.getD (k + 1) 0)

/-- Modelled from the spec: the `Time` dimension of lines 680-694 for one
route — cumul variables with start forced to 0, zero slack, and every
cumul within `[0, horizon]`. -/
def RouteTimeFeasible (M : ℕ → ℕ → ℤ) (horizon : ℤ) (r : List ℕ) : Prop :=
  ∃ cumul : ℕ → ℤ,
    cumul 0 = 0 ∧
    (∀ k, k + 1 < (nodePath r).length →
      cumul (k + 1) = cumul k +
        M ((nodePath r).getD k 0) ((nodePath r).getD (k + 1) 0)) ∧
    (∀ k, k < (nodePath r).length → 0 ≤ cumul k ∧ cumul k ≤ horizon)

/-- Modelled from the spec: what the opaque OR-Tools engine guarantees of a
returned assignment (per-vehicle lists of site nodes): the site nodes
across all vehicles are exactly 1..n, each exactly once, and every route
satisfies the `Time` dimension with horizon 480. -/
def ValidEngineSolution (n : ℕ) (M : ℕ → ℕ → ℤ) (vroutes : List (List ℕ)) : Prop :=
  vroutes.flatten.Perm ((List.range n).map (· + 1)) ∧
  ∀ r ∈ vroutes, RouteTimeFeasible M 480 r

/-- Lines 714-726: map each vehicle's node sequence back to site ids
(`ids[node - 1]`) and keep only the non-empty routes. -/
def extractRoutes (ids : List String) (vroutes : List (List ℕ)) :
    List (List String) :=
  (vroutes.map (fun r => r.map (fun v => ids.getD (v - 1) ""))).filter
    (fun seq => !seq.isEmpty)

/-- Lines 560-726: `_solve_single_cluster`, with the opaque engine's answer
supplied as `engine` (`none` = no feasible solution found).  Column indices
are the already-resolved header lookups (`none` = column absent); a missing
`cluster_id` or lat/lon column raises `ValueError` (lines 583-588).
After filtering, `if n == 0: return []` (lines 599-601) comes before any
vector or matrix is built. -/
noncomputable def solveSingleCluster (parse : String → Option ℚ)
    (cidIdx latIdx lonIdx svcIdx idIdx : Option ℕ) (cluster : ℤ)
    (speed : ℝ) (defaultH : ℚ) (engine : Option (List (List ℕ)))
    (rows : List (List String)) : Except Unit (List (List String)) :=
  match cidIdx with
  | none => .error ()
  | some ci =>
    match latIdx, lonIdx with
    | some la, some lo =>
      (match filterCluster parse ci cluster rows with
      | .error e => .error e
      | .ok frows =>
        if frows.length = 0 then .ok []
        else
          match buildCoords parse la frows, buildCoords parse lo frows with
          | .ok latq, .ok lonq =>
            (match buildIds idIdx frows, buildSvc parse svcIdx defaultH frows with
            | .ok ids, .ok svc =>
              let lats : ℕ → ℝ := fun i => ((latq.getD i 0 : ℚ) : ℝ)
              let lons : ℕ → ℝ := fun i => ((lonq.getD i 0 : ℚ) : ℝ)
              let _M := buildTimeMatrix frows.length
                (travelMin speed lats lons) svc
              match engine with
              | none => .ok []
              | some vroutes => .ok (extractRoutes ids vroutes)
            | _, _ => .error ())
          | _, _ => .error ())
    | _, _ => .error ()

/-! ### SolutionStore (vrptw_tab.py lines 877-993)

One CSV record per route.  The CSV layer (csv.writer / csv.DictReader)
transports each field's string exactly (quoting is transparent), so a
record is modelled by its fields.  `speed_mph` and `service_hours` are
written with Python float repr and reparsed with `float(...)`, which
round-trips exactly; they are modelled as rationals carried through.
`vehicle` and `stops` are written as decimal numerals and reparsed with
`int(...)`, which is modelled faithfully (`parsePyInt`). -/

structure SolvedRecord where
  state : String
  cluster : String
  vehicle : String
  stops : String
  sequence : String
  mode : String
  speed : ℚ
  service : ℚ
  solvedAt : String
deriving DecidableEq

structure LoadedSolution where
  state : String
  mode : String
  allRows : List (String × String × ℤ × List String)
  speed : ℚ
  service : ℚ
  solvedAt : String
deriving DecidableEq

/-- Lines 877-934: `_save_solution`.  One record per `(st, cluster_label,
vehicle_idx, seq_ids)` row, `sequence = ",".join(seq_ids)`,
`stops = len(seq_ids)`, identical mode/speed/service/timestamp on every
record. -/
def saveSolution (allRows : List (String × String × ℕ × List String))
    (mode : String) (speed service : ℚ) (solvedAt : String) :
    List SolvedRecord :=
  allRows.map (fun r =>
    ⟨r.1, r.2.1, ⟨natToChars r.2.2.1⟩, ⟨natToChars r.2.2.2.length⟩,
      joinSeqStr r.2.2.2, mode, speed, service, solvedAt⟩)

/-- One iteration of the load loop (lines 962-977): parse `vehicle` and
`stops` with `int(...)` (either failure raises, aborting the load), split
the sequence back into ids. -/
def parseRecordRow (r : SolvedRecord) : Option (String × String × ℤ × List String) :=
  match parsePyInt r.vehicle, parsePyInt r.stops with
  | some v, some _ => some (r.state, r.cluster, v, splitSeqStr r.sequence)
  | _, _ => none

/-- The load loop over all records: the first failing record aborts the
whole load (the `try` of lines 953-991 wraps the entire loop). -/
def loadRows : List SolvedRecord → Option (List (String × String × ℤ × List String))
  | [] => some []
  | r :: rs =>
    match parseRecordRow r, loadRows rs with
    | some x, some xs => some (x :: xs)
    | _, _ => none

/-- The body of `_load_solution` once the file exists: run the row loop;
any exception or an empty row list yields `none`, otherwise
mode/speed/service/timestamp are recovered from the first record. -/
def loadSolutionFromRecs (state : String) (recs : List SolvedRecord) :
    Option LoadedSolution :=
  match loadRows recs with
  | none => none
  | some rows =>
    match recs, rows with
    | r0 :: _, _ :: _ =>
      some ⟨state, r0.mode, rows, r0.speed, r0.service, r0.solvedAt⟩
    | _, _ => none

/-- Lines 936-993: `_load_solution`.  A missing file, any exception while
reading rows, or an empty record list all yield `none` ("no solution
available"). -/
def loadSolution (state : String) (file : Option (List SolvedRecord)) :
    Option LoadedSolution :=
  match file with
  | none => none
  | some recs => loadSolutionFromRecs state recs

/-! ## Theorems -/

/-! ### List update/read lemmas -/

theorem getD_set {α : Type} (l : List α) (i j : ℕ) (v d : α) :
    (l.set i v).getD j d = if i = j ∧ i < l.length then v else l.getD j d := by
  simp only [List.getD_eq_getElem?_getD, List.getElem?_set]
  by_cases hij : i = j
  · subst hij
    by_cases hl : i < l.length
    · simp [hl]
    · have hnone : l[i]? = none := List.getElem?_eq_none (by omega)
      simp [hl, hnone]
  · simp [hij]

theorem getD_replicate {α : Type} (n i : ℕ) (x d : α) :
    (List.replicate n x).getD i d = if i < n then x else d := by
  simp only [List.getD_eq_getElem?_getD, List.getElem?_replicate]
  by_cases h : i < n
  · simp [h]
  · simp [h]

/-! ### Time-matrix characterization -/

theorem getCell_matSet (m : List (List ℤ)) (i j a b : ℕ) (v : ℤ) :
    getCell (matSet m i j v) a b =
      if i = a ∧ j = b ∧ i < m.length ∧ j < (m.getD i []).length then v
      else getCell m a b := by
  unfold getCell matSet
  rw [getD_set]
  by_cases hia : i = a ∧ i < m.length
  · rw [if_pos hia]
    obtain ⟨hia1, hia2⟩ := hia
    subst hia1
    rw [getD_set]
    by_cases hjb : j = b ∧ j < (m.getD i []).length
    · rw [if_pos hjb, if_pos ⟨rfl, hjb.1, hia2, hjb.2⟩]
    · rw [if_neg hjb, if_neg]
      intro hcon
      exact hjb ⟨hcon.2.1, hcon.2.2.2⟩
  · rw [if_neg hia, if_neg]
    intro hcon
    exact hia ⟨hcon.1, hcon.2.2.1⟩

theorem matSet_length (m : List (List ℤ)) (i j : ℕ) (v : ℤ) :
    (matSet m i j v).length = m.length := by
  simp [matSet]

theorem matSet_rowlen (m : List (List ℤ)) (i j : ℕ) (v : ℤ) (a : ℕ) :
    ((matSet m i j v).getD a []).length = (m.getD a []).length := by
  unfold matSet
  rw [getD_set]
  split
  · rename_i h
    rw [← h.1]
    simp
  · rfl

theorem innerPass_zero (travel : ℕ → ℕ → ℤ) (svc : List ℤ) (i : ℕ)
    (m : List (List ℤ)) : innerPass travel svc i 0 m = m := rfl

theorem innerPass_succ (travel : ℕ → ℕ → ℤ) (svc : List ℤ) (i k : ℕ)
    (m : List (List ℤ)) :
    innerPass travel svc i (k + 1) m =
      matSet (innerPass travel svc i k m) (i + 1) (k + 1)
        (travel i k + svc.getD i 0) := by
  unfold innerPass
  rw [List.range_succ, List.foldl_append, List.foldl_cons, List.foldl_nil]

theorem innerPass_length (travel : ℕ → ℕ → ℤ) (svc : List ℤ) (i k : ℕ)
    (m : List (List ℤ)) : (innerPass travel svc i k m).length = m.length := by
  induction k with
  | zero => rfl
  | succ k ih => rw [innerPass_succ, matSet_length, ih]

theorem innerPass_rowlen (travel : ℕ → ℕ → ℤ) (svc : List ℤ) (i k : ℕ)
    (m : List (List ℤ)) (a : ℕ) :
    ((innerPass travel svc i k m).getD a []).length = (m.getD a []).length := by
  induction k with
  | zero => rfl
  | succ k ih => rw [innerPass_succ, matSet_rowlen, ih]

theorem innerPass_getCell (travel : ℕ → ℕ → ℤ) (svc : List ℤ) (i k : ℕ)
    (m : List (List ℤ)) (a b : ℕ) (hr : i + 1 < m.length)
    (hc : k < (m.getD (i + 1) []).length) :
    getCell (innerPass travel svc i k m) a b =
      if a = i + 1 ∧ 1 ≤ b ∧ b ≤ k then travel i (b - 1) + svc.getD i 0
      else getCell m a b := by
  induction k with
  | zero =>
    have hfalse : ¬ (a = i + 1 ∧ 1 ≤ b ∧ b ≤ 0) := by omega
    rw [if_neg hfalse]
    rfl
  | succ k ih =>
    rw [innerPass_succ, getCell_matSet, innerPass_length, innerPass_rowlen]
    by_cases hab : i + 1 = a ∧ k + 1 = b
    · rw [if_pos ⟨hab.1, hab.2, hr, by omega⟩]
      rw [if_pos (by omega)]
      have hbk : b - 1 = k := by omega
      rw [hbk]
    · rw [if_neg (by tauto)]
      rw [ih (by omega)]
      by_cases hy : a = i + 1 ∧ 1 ≤ b ∧ b ≤ k
      · rw [if_pos hy, if_pos (by omega)]
      · rw [if_neg hy, if_neg (by omega)]

theorem rowPass_length (travel : ℕ → ℕ → ℤ) (svc : List ℤ) (n i : ℕ)
    (m : List (List ℤ)) : (rowPass travel svc n i m).length = m.length := by
  unfold rowPass
  rw [matSet_length, innerPass_length]

theorem rowPass_rowlen (travel : ℕ → ℕ → ℤ) (svc : List ℤ) (n i : ℕ)
    (m : List (List ℤ)) (a : ℕ) :
    ((rowPass travel svc n i m).getD a []).length = (m.getD a []).length := by
  unfold rowPass
  rw [matSet_rowlen, innerPass_rowlen]

theorem rowPass_getCell (travel : ℕ → ℕ → ℤ) (svc : List ℤ) (n i : ℕ)
    (m : List (List ℤ)) (a b : ℕ) (hr : i + 1 < m.length)
    (hc : n < (m.getD (i + 1) []).length) :
    getCell (rowPass travel svc n i m) a b =
      if a = i + 1 ∧ b = 0 then svc.getD i 0
      else if a = i + 1 ∧ 1 ≤ b ∧ b ≤ n then travel i (b - 1) + svc.getD i 0
      else getCell m a b := by
  unfold rowPass
  rw [getCell_matSet, innerPass_length, innerPass_rowlen]
  by_cases h0 : i + 1 = a ∧ b = 0
  · rw [if_pos ⟨h0.1, h0.2.symm, hr, by omega⟩, if_pos ⟨h0.1.symm, h0.2⟩]
  · rw [if_neg (by tauto)]
    rw [innerPass_getCell travel svc i n m a b hr hc]
    by_cases hy : a = i + 1 ∧ 1 ≤ b ∧ b ≤ n
    · rw [if_pos hy, if_neg (show ¬ (a = i + 1 ∧ b = 0) by omega)]
    · rw [if_neg hy, if_neg (show ¬ (a = i + 1 ∧ b = 0) by tauto)]

theorem outerPass_succ (travel : ℕ → ℕ → ℤ) (svc : List ℤ) (n k : ℕ)
    (m : List (List ℤ)) :
    outerPass travel svc n (k + 1) m =
      rowPass travel svc n k (outerPass travel svc n k m) := by
  unfold outerPass
  rw [List.range_succ, List.foldl_append, List.foldl_cons, List.foldl_nil]

theorem outerPass_length (travel : ℕ → ℕ → ℤ) (svc : List ℤ) (n k : ℕ)
    (m : List (List ℤ)) : (outerPass travel svc n k m).length = m.length := by
  induction k with
  | zero => rfl
  | succ k ih => rw [outerPass_succ, rowPass_length, ih]

theorem outerPass_rowlen (travel : ℕ → ℕ → ℤ) (svc : List ℤ) (n k : ℕ)
    (m : List (List ℤ)) (a : ℕ) :
    ((outerPass travel svc n k m).getD a []).length = (m.getD a []).length := by
  induction k with
  | zero => rfl
  | succ k ih => rw [outerPass_succ, rowPass_rowlen, ih]

theorem outerPass_getCell (travel : ℕ → ℕ → ℤ) (svc : List ℤ) (n k : ℕ)
    (m : List (List ℤ)) (a b : ℕ) (hk : k ≤ n) (hm : m.length = n + 1)
    (hrow : ∀ c, c < n + 1 → (m.getD c []).length = n + 1) :
    getCell (outerPass travel svc n k m) a b =
      if 1 ≤ a ∧ a ≤ k ∧ b = 0 then svc.getD (a - 1) 0
      else if 1 ≤ a ∧ a ≤ k ∧ 1 ≤ b ∧ b ≤ n then
        travel (a - 1) (b - 1) + svc.getD (a - 1) 0
      else getCell m a b := by
  induction k with
  | zero =>
    rw [if_neg (by omega), if_neg (by omega)]
    rfl
  | succ k ih =>
    rw [outerPass_succ]
    rw [rowPass_getCell travel svc n k _ a b
      (by rw [outerPass_length, hm]; omega)
      (by rw [outerPass_rowlen]; rw [hrow (k + 1) (by omega)]; omega)]
    rw [ih (by omega)]
    by_cases hak : a = k + 1
    · by_cases hb0 : b = 0
      · rw [if_pos ⟨hak, hb0⟩, if_pos (show 1 ≤ a ∧ a ≤ k + 1 ∧ b = 0 by omega)]
        rw [show a - 1 = k by omega]
      · rw [if_neg (show ¬ (a = k + 1 ∧ b = 0) by omega)]
        by_cases hbn : 1 ≤ b ∧ b ≤ n
        · rw [if_pos ⟨hak, hbn.1, hbn.2⟩,
            if_neg (show ¬ (1 ≤ a ∧ a ≤ k + 1 ∧ b = 0) by omega),
            if_pos (show 1 ≤ a ∧ a ≤ k + 1 ∧ 1 ≤ b ∧ b ≤ n by omega)]
          rw [show a - 1 = k by omega]
        · rw [if_neg (show ¬ (a = k + 1 ∧ 1 ≤ b ∧ b ≤ n) by omega),
            if_neg (show ¬ (1 ≤ a ∧ a ≤ k ∧ b = 0) by omega),
            if_neg (show ¬ (1 ≤ a ∧ a ≤ k ∧ 1 ≤ b ∧ b ≤ n) by omega),
            if_neg (show ¬ (1 ≤ a ∧ a ≤ k + 1 ∧ b = 0) by omega),
            if_neg (show ¬ (1 ≤ a ∧ a ≤ k + 1 ∧ 1 ≤ b ∧ b ≤ n) by omega)]
    · rw [if_neg (show ¬ (a = k + 1 ∧ b = 0) by omega),
        if_neg (show ¬ (a = k + 1 ∧ 1 ≤ b ∧ b ≤ n) by omega)]
      by_cases h1 : 1 ≤ a ∧ a ≤ k ∧ b = 0
      · rw [if_pos h1, if_pos (show 1 ≤ a ∧ a ≤ k + 1 ∧ b = 0 by omega)]
      · rw [if_neg h1, if_neg (show ¬ (1 ≤ a ∧ a ≤ k + 1 ∧ b = 0) by omega)]
        by_cases h2 : 1 ≤ a ∧ a ≤ k ∧ 1 ≤ b ∧ b ≤ n
        · rw [if_pos h2, if_pos (show 1 ≤ a ∧ a ≤ k + 1 ∧ 1 ≤ b ∧ b ≤ n by omega)]
        · rw [if_neg h2,
            if_neg (show ¬ (1 ≤ a ∧ a ≤ k + 1 ∧ 1 ≤ b ∧ b ≤ n) by omega)]

theorem getCell_init (n a b : ℕ) :
    getCell (List.replicate (n + 1) (List.replicate (n + 1) (0 : ℤ))) a b = 0 := by
  unfold getCell
  rw [getD_replicate]
  split
  · rw [getD_replicate]
    split
    · rfl
    · rfl
  · simp

theorem buildTimeMatrix_getCell (n : ℕ) (travel : ℕ → ℕ → ℤ) (svc : List ℤ)
    (a b : ℕ) :
    getCell (buildTimeMatrix n travel svc) a b =
      if 1 ≤ a ∧ a ≤ n ∧ b = 0 then svc.getD (a - 1) 0
      else if 1 ≤ a ∧ a ≤ n ∧ 1 ≤ b ∧ b ≤ n then
        travel (a - 1) (b - 1) + svc.getD (a - 1) 0
      else 0 := by
  unfold buildTimeMatrix
  rw [outerPass_getCell travel svc n n _ a b le_rfl (by simp)
    (fun c hc => by rw [getD_replicate, if_pos hc]; simp)]
  rw [getCell_init]

theorem buildTimeMatrix_length (n : ℕ) (travel : ℕ → ℕ → ℤ) (svc : List ℤ) :
    (buildTimeMatrix n travel svc).length = n + 1 := by
  unfold buildTimeMatrix
  rw [outerPass_length]
  simp

theorem buildTimeMatrix_rowlen (n : ℕ) (travel : ℕ → ℕ → ℤ) (svc : List ℤ)
    (a : ℕ) (ha : a < n + 1) :
    ((buildTimeMatrix n travel svc).getD a []).length = n + 1 := by
  unfold buildTimeMatrix
  rw [outerPass_rowlen, getD_replicate, if_pos ha]
  simp

/-! ### Service-minute vector characterization -/

theorem buildSvc_ok_length (parse : String → Option ℚ) (svcIdx : Option ℕ)
    (dH : ℚ) : ∀ (rows : List (List String)) (svc : List ℤ),
    buildSvc parse svcIdx dH rows = .ok svc → svc.length = rows.length := by
  intro rows
  induction rows with
  | nil =>
    intro svc h
    simp only [buildSvc] at h
    cases h
    rfl
  | cons r rest ih =>
    intro svc h
    simp only [buildSvc] at h
    cases hsor : svcOfRow parse svcIdx dH r with
    | error e => rw [hsor] at h; cases h
    | ok v =>
      rw [hsor] at h
      cases hrest : buildSvc parse svcIdx dH rest with
      | error e => rw [hrest] at h; cases h
      | ok vs =>
        rw [hrest] at h
        cases h
        simp [ih vs hrest]

theorem buildSvc_getD (parse : String → Option ℚ) (svcIdx : Option ℕ)
    (dH : ℚ) : ∀ (rows : List (List String)) (svc : List ℤ),
    buildSvc parse svcIdx dH rows = .ok svc → ∀ i, i < rows.length →
    svcOfRow parse svcIdx dH (rows.getD i []) = .ok (svc.getD i 0) := by
  intro rows
  induction rows with
  | nil => intro svc h i hi; simp at hi
  | cons r rest ih =>
    intro svc h i hi
    simp only [buildSvc] at h
    cases hsor : svcOfRow parse svcIdx dH r with
    | error e => rw [hsor] at h; cases h
    | ok v =>
      rw [hsor] at h
      cases hrest : buildSvc parse svcIdx dH rest with
      | error e => rw [hrest] at h; cases h
      | ok vs =>
        rw [hrest] at h
        cases h
        cases i with
        | zero => simpa using hsor
        | succ i =>
          have := ih vs hrest i (by simpa using hi)
          simpa using this

/-! ### Claim C1 -/

/-- C1: for every non-empty filtered site list (n sites) whose
service-minute vector builds successfully, the time matrix built before
solving has size (n+1) x (n+1) and satisfies
`M[i+1][j+1] = travel(i, j) + service_minutes[i]`,
`M[i+1][0] = service_minutes[i]`, row 0 identically 0, where
`service_minutes[i]` is `round(override_hours * 60)` when the row's
`service_time_hours` cell is present and non-empty, else
`round(default_service_hours * 60)`. -/
theorem claim1_time_matrix (parse : String → Option ℚ) (svcIdx : Option ℕ)
    (defaultH : ℚ) (travel : ℕ → ℕ → ℤ) (frows : List (List String))
    (svc : List ℤ) (_hne : frows ≠ [])
    (hsvc : buildSvc parse svcIdx defaultH frows = .ok svc) :
    ((buildTimeMatrix frows.length travel svc).length = frows.length + 1 ∧
      ∀ row ∈ buildTimeMatrix frows.length travel svc,
        row.length = frows.length + 1) ∧
    (∀ i j, i < frows.length → j < frows.length →
      getCell (buildTimeMatrix frows.length travel svc) (i + 1) (j + 1) =
        travel i j + svc.getD i 0) ∧
    (∀ i, i < frows.length →
      getCell (buildTimeMatrix frows.length travel svc) (i + 1) 0 =
        svc.getD i 0) ∧
    (∀ j, j ≤ frows.length →
      getCell (buildTimeMatrix frows.length travel svc) 0 j = 0) ∧
    (∀ i, i < frows.length →
      (svcIdx = none → svc.getD i 0 = pyRound (defaultH * 60)) ∧
      (∀ k, svcIdx = some k → ∀ cell, (frows.getD i []).get? k = some cell →
        (cell = "" → svc.getD i 0 = pyRound (defaultH * 60)) ∧
        (∀ q, parse cell = some q → cell ≠ "" →
          svc.getD i 0 = pyRound (q * 60)))) := by
  refine ⟨⟨buildTimeMatrix_length _ _ _, ?_⟩, ?_, ?_, ?_, ?_⟩
  · intro row hrow
    rw [List.mem_iff_getElem] at hrow
    obtain ⟨i, hilt, hieq⟩ := hrow
    have hlen : (buildTimeMatrix frows.length travel svc).length =
        frows.length + 1 := buildTimeMatrix_length _ _ _
    have hgetD : (buildTimeMatrix frows.length travel svc).getD i [] = row := by
      rw [List.getD_eq_getElem?_getD, List.getElem?_eq_getElem hilt]
      simpa using hieq
    rw [← hgetD]
    exact buildTimeMatrix_rowlen _ _ _ i (by omega)
  · intro i j hi hj
    rw [buildTimeMatrix_getCell, if_neg (by omega), if_pos (by omega)]
    rfl
  · intro i hi
    rw [buildTimeMatrix_getCell, if_pos (by omega)]
    rfl
  · intro j _hj
    rw [buildTimeMatrix_getCell, if_neg (by omega), if_neg (by omega)]
  · intro i hi
    have hrow := buildSvc_getD parse svcIdx defaultH frows svc hsvc i hi
    constructor
    · intro hnone
      simp only [hnone, svcOfRow] at hrow
      exact (Except.ok.inj hrow).symm
    · intro k hk cell hcell
      simp only [hk, svcOfRow, hcell] at hrow
      constructor
      · intro hempty
        rw [if_pos hempty] at hrow
        exact (Except.ok.inj hrow).symm
      · intro q hq hne
        rw [if_neg hne] at hrow
        simp only [hq] at hrow
        exact (Except.ok.inj hrow).symm

/-- Witness for C1 at a concrete instance: one site whose
`service_time_hours` cell is " 2 hours -> 120 minutes". -/
theorem claim1_witness :
    (([ "x", "2"] : List String) :: []) ≠ [] ∧
    buildSvc (fun s => if s = "2" then some (2 : ℚ) else none) (some 1) 4
      [[ "x", "2"]] = .ok [120] ∧
    getCell (buildTimeMatrix 1 (fun _ _ => 7) [120]) 1 0 = 120 := by
  have hsvc : buildSvc (fun s => if s = "2" then some (2 : ℚ) else none)
      (some 1) 4 [[ "x", "2"]] = .ok [120] := by
    norm_num [buildSvc, svcOfRow, pyRound]
    rw [if_neg (show ¬ (( "2" : String) = "") by decide)]
  exact ⟨by decide, hsvc,
    (claim1_time_matrix (fun s => if s = "2" then some (2 : ℚ) else none)
      (some 1) 4 (fun _ _ => 7) [[ "x", "2"]] [120] (by decide)
      hsvc).2.2.1 0 (by decide)⟩

/-! ### Claim C2 (corrected) -/

/-- C2 counterexample: the diagonal is not forced to 0.  With one site of
service time 240 minutes, the built matrix has `M[1][1] = 240` (the travel
part vanishes for i = j, but the service time is still added), refuting
`M[i][i] = 0` for all i. -/
theorem claim2_counterexample :
    getCell (buildTimeMatrix 1
      (travelMin 50 (fun _ => (0 : ℝ)) (fun _ => (0 : ℝ))) [240]) 1 1 = 240 ∧
    (240 : ℤ) ≠ 0 := by
  constructor
  · rw [buildTimeMatrix_getCell, if_neg (by omega), if_pos (by omega)]
    rw [show travelMin 50 (fun _ => (0 : ℝ)) (fun _ => (0 : ℝ)) (1 - 1) (1 - 1)
        = 0 from if_pos rfl]
    decide
  · decide

/-- C2 amended: `M[0][0] = 0`, and for every site i the diagonal entry is
`M[i+1][i+1] = service_minutes[i]` (only the travel component vanishes on
the diagonal; the service time is still folded in), so a site's diagonal
entry is 0 exactly when its service time is 0. -/
theorem claim2_diagonal (speed : ℝ) (lats lons : ℕ → ℝ) (svc : List ℤ)
    (n i : ℕ) (hi : i < n) :
    getCell (buildTimeMatrix n (travelMin speed lats lons) svc) (i + 1) (i + 1) =
      svc.getD i 0 ∧
    getCell (buildTimeMatrix n (travelMin speed lats lons) svc) 0 0 = 0 := by
  constructor
  · rw [buildTimeMatrix_getCell, if_neg (by omega), if_pos (by omega)]
    rw [show travelMin speed lats lons (i + 1 - 1) (i + 1 - 1) = 0 from
      if_pos rfl]
    rw [zero_add]
    rfl
  · rw [buildTimeMatrix_getCell, if_neg (by omega), if_neg (by omega)]

/-- Witness for the amended C2 at a concrete instance. -/
theorem claim2_witness :
    getCell (buildTimeMatrix 1
      (travelMin 50 (fun _ => (0 : ℝ)) (fun _ => (0 : ℝ))) [7]) 1 1 = 7 ∧
    getCell (buildTimeMatrix 1
      (travelMin 50 (fun _ => (0 : ℝ)) (fun _ => (0 : ℝ))) [7]) 0 0 = 0 := by
  have h := claim2_diagonal 50 (fun _ => (0 : ℝ)) (fun _ => (0 : ℝ)) [7] 1 0
    (by decide)
  exact ⟨h.1, h.2⟩

/-! ### Claim C3: route time feasibility -/

/-- C3: for every solve whose engine answer satisfies the registered
constraints, every returned route keeps its cumulative elapsed time (the
running sum of consecutive time-matrix entries along depot, stops, depot)
within [0, 480] at every node of the route. -/
theorem claim3_route_time (M : ℕ → ℕ → ℤ) (r : List ℕ)
    (hfeas : RouteTimeFeasible M 480 r) :
    ∀ k, k < (nodePath r).length →
      0 ≤ cumulAt M (nodePath r) k ∧ cumulAt M (nodePath r) k ≤ 480 := by
  obtain ⟨cumul, h0, hstep, hbound⟩ := hfeas
  have hagree : ∀ k, k < (nodePath r).length →
      cumulAt M (nodePath r) k = cumul k := by
    intro k
    induction k with
    | zero =>
      intro _
      rw [h0]
      rfl
    | succ k ih =>
      intro hk
      have hk2 : k < (nodePath r).length := by omega
      have hcu : cumulAt M (nodePath r) (k + 1) = cumulAt M (nodePath r) k +
          M ((nodePath r).getD k 0) ((nodePath r).getD (k + 1) 0) := rfl
      rw [hcu, ih hk2, ← hstep k hk]
  intro k hk
  rw [hagree k hk]
  exact hbound k hk

/-- Witness for C3: one route [1] with the zero matrix, checked at the
final (return-to-depot) node of the path. -/
theorem claim3_witness :
    0 ≤ cumulAt (fun _ _ => (0 : ℤ)) (nodePath [1]) 2 ∧
    cumulAt (fun _ _ => (0 : ℤ)) (nodePath [1]) 2 ≤ 480 :=
  claim3_route_time (fun _ _ => 0) [1]
    ⟨fun _ => 0, rfl, fun k _ => by simp, fun k _ => by norm_num⟩
    2 (by decide)

/-! ### Claim C4: exact coverage, infeasibility signalling -/

theorem filter_nonempty_flatten {β : Type} (l : List (List β)) :
    (l.filter (fun s => !s.isEmpty)).flatten = l.flatten := by
  induction l with
  | nil => rfl
  | cons h t ih =>
    cases h with
    | nil => simpa using ih
    | cons x xs => simpa using ih

theorem extractRoutes_flatten (ids : List String) (vroutes : List (List ℕ)) :
    (extractRoutes ids vroutes).flatten =
      vroutes.flatten.map (fun v => ids.getD (v - 1) "") := by
  unfold extractRoutes
  rw [filter_nonempty_flatten, ← List.map_flatten]

theorem map_getD_range (ids : List String) :
    (List.range ids.length).map (fun k => ids.getD k "") = ids := by
  apply List.ext_getElem
  · simp
  · intro i h1 h2
    simp [List.getD_eq_getElem?_getD, List.getElem?_eq_getElem h2]

/-- C4: (i) when the engine returns a solution, the extracted routes'
site ids are a permutation of the input id list — so their union is
exactly the input id set, and (given the data-model guarantee that ids are
unique) no id appears more than once across all routes; (ii) when the
engine finds no feasible solution, the solve returns the explicit value
`.ok []` — an empty route set signalled as a normal result, distinct from
the `.error` outcome of a unit that could not be attempted. -/
theorem claim4_coverage :
    (∀ (n : ℕ) (M : ℕ → ℕ → ℤ) (ids : List String) (vroutes : List (List ℕ)),
      ValidEngineSolution n M vroutes → ids.length = n →
      (extractRoutes ids vroutes).flatten.Perm ids ∧
      (∀ x, x ∈ (extractRoutes ids vroutes).flatten ↔ x ∈ ids) ∧
      (ids.Nodup → (extractRoutes ids vroutes).flatten.Nodup)) ∧
    (∀ (parse : String → Option ℚ) (ci la lo : ℕ) (svcIdx idIdx : Option ℕ)
      (cluster : ℤ) (speed : ℝ) (defaultH : ℚ) (rows frows : List (List String))
      (latq lonq : List ℚ) (ids : List String) (svc : List ℤ),
      filterCluster parse ci cluster rows = .ok frows → frows.length ≠ 0 →
      buildCoords parse la frows = .ok latq →
      buildCoords parse lo frows = .ok lonq →
      buildIds idIdx frows = .ok ids →
      buildSvc parse svcIdx defaultH frows = .ok svc →
      solveSingleCluster parse (some ci) (some la) (some lo) svcIdx idIdx
        cluster speed defaultH none rows = .ok [] ∧
      ∀ e, (Except.ok ([] : List (List String)) : Except Unit _) ≠
        .error e) := by
  constructor
  · intro n M ids vroutes hvalid hlen
    have hperm : (extractRoutes ids vroutes).flatten.Perm ids := by
      rw [extractRoutes_flatten]
      have h1 := hvalid.1.map (fun v => ids.getD (v - 1) "")
      rw [List.map_map] at h1
      have h2 : ((fun v => ids.getD (v - 1) "") ∘ (· + 1)) =
          (fun k => ids.getD k "") := by
        funext k
        rfl
      rw [h2] at h1
      rw [← hlen] at h1
      rw [map_getD_range] at h1
      exact h1
    exact ⟨hperm, fun x => hperm.mem_iff, fun hnd => (hperm.nodup_iff).2 hnd⟩
  · intro parse ci la lo svcIdx idIdx cluster speed defaultH rows frows latq
      lonq ids svc hfil hne hlat hlon hids hsvc
    constructor
    · simp only [solveSingleCluster, hfil, if_neg hne, hlat, hlon, hids, hsvc]
    · intro e h
      cases h

/-- Witness for C4: both conjuncts applied at concrete inputs — a one-site
solution extracted to a permutation of the id list, and a concrete
infeasible (engine = none) solve returning `.ok []`. -/
theorem claim4_witness :
    (extractRoutes [ "a"] [[1]]).flatten.Perm [ "a"] ∧
    solveSingleCluster
      (fun s => if s = "5" then some (5 : ℚ) else
        if s = "1" then some 1 else if s = "2" then some 2 else none)
      (some 0) (some 1) (some 2) none none 5 50 4 none [[ "5", "1", "2"]] =
      .ok [] := by
  constructor
  · exact (claim4_coverage.1 1 (fun _ _ => 0) [ "a"] [[1]]
      ⟨List.Perm.refl [1], by
        intro r hr
        simp only [List.mem_singleton] at hr
        subst hr
        exact ⟨fun _ => 0, rfl, fun k _ => by simp, fun k _ => by norm_num⟩⟩
      rfl).1
  · exact (claim4_coverage.2
      (fun s => if s = "5" then some (5 : ℚ) else
        if s = "1" then some 1 else if s = "2" then some 2 else none)
      0 1 2 none none 5 50 4 [[ "5", "1", "2"]] [[ "5", "1", "2"]]
      [1] [2] [⟨natToChars 0⟩] [pyRound ((4 : ℚ) * 60)]
      (by rfl) (by decide) (by rfl) (by rfl) (by rfl) (by rfl)).1

/-! ### Claim C5 (corrected): empty unit of work -/

/-- C5 counterexample: with an empty site list the solve does not fail with
any error — it returns `.ok []` (lines 599-601: `if n == 0: return []`).
There is no `EmptyInputError` anywhere in the repository. -/
theorem claim5_counterexample :
    solveSingleCluster (fun _ => none) (some 0) (some 1) (some 2) none none
      3 50 4 none [] = .ok [] ∧
    ∀ e, (Except.ok ([] : List (List String)) : Except Unit _) ≠ .error e := by
  constructor
  · rfl
  · intro e h
    cases h

/-- C5 amended: when the filtered site list for a requested cluster is
empty, the solve returns an empty route list without raising; the caller
consequently has nothing to solve for that unit (no routes are added). -/
theorem claim5_empty_returns_nil (parse : String → Option ℚ) (ci la lo : ℕ)
    (svcIdx idIdx : Option ℕ) (cluster : ℤ) (speed : ℝ) (defaultH : ℚ)
    (engine : Option (List (List ℕ))) (rows : List (List String))
    (hfil : filterCluster parse ci cluster rows = .ok []) :
    solveSingleCluster parse (some ci) (some la) (some lo) svcIdx idIdx
      cluster speed defaultH engine rows = .ok [] := by
  simp only [solveSingleCluster, hfil, List.length_nil, if_pos]

/-- Witness for the amended C5. -/
theorem claim5_witness :
    filterCluster (fun _ => none) 0 (3 : ℤ) [] = .ok [] ∧
    solveSingleCluster (fun _ => none) (some 0) (some 1) (some 2) none none
      3 50 4 (some [[1]]) [] = .ok [] :=
  ⟨rfl, claim5_empty_returns_nil (fun _ => none) 0 1 2 none none 3 50 4
    (some [[1]]) [] rfl⟩

/-! ### Claim C6 (corrected): non-positive speed is not rejected -/

/-- C6 counterexample: with `speed_mph = 0` (non-positive) the solve is not
rejected — it proceeds to filter, build the matrix and return routes.
The only guards in the source are the UI spin-box range (1-120 mph,
lines 122-127) and the clamp `max(1e-6, speed_mph)` inside `travel_min`
(line 641). -/
theorem claim6_counterexample :
    solveSingleCluster
      (fun s => if s = "5" then some (5 : ℚ) else
        if s = "1" then some 1 else if s = "2" then some 2 else none)
      (some 0) (some 1) (some 2) none none 5 0 4 (some [[1]])
      [[ "5", "1", "2"]] = .ok [[⟨natToChars 0⟩]] ∧
    ((0 : ℝ) ≤ 0) := by
  constructor
  · rfl
  · exact le_refl 0

/-- C6 amended: a non-positive speed is never rejected by the solve
functions.  The travel-time closure clamps the divisor to
`max(1e-6, speed_mph)`, so for every `speed_mph ≤ 0` it computes
`round(miles / 1e-6 * 60)` and the solve proceeds normally; the only
protection against non-positive speeds is the UI spin box, whose range
is clamped to [1, 120] mph. -/
theorem claim6_speed_clamped (speed : ℝ) (hsp : speed ≤ 0)
    (lats lons : ℕ → ℝ) (i j : ℕ) :
    travelMin speed lats lons i j =
      if i = j then 0
      else pyRound (havMiles lats lons i j / (0.000001 : ℝ) * 60) := by
  unfold travelMin
  have hmax : max (0.000001 : ℝ) speed = 0.000001 := by
    rw [max_eq_left]
    calc speed ≤ 0 := hsp
    _ ≤ 0.000001 := by norm_num
  rw [hmax]

/-- Witness for the amended C6 at `speed = 0`, `i = j = 0`. -/
theorem claim6_witness :
    travelMin 0 (fun _ => (0 : ℝ)) (fun _ => (0 : ℝ)) 0 0 =
      if 0 = 0 then 0
      else pyRound (havMiles (fun _ => (0 : ℝ)) (fun _ => (0 : ℝ)) 0 0 /
        (0.000001 : ℝ) * 60) :=
  claim6_speed_clamped 0 (by norm_num) (fun _ => (0 : ℝ)) (fun _ => (0 : ℝ)) 0 0

/-! ### Claim C7: the travel-minutes formula -/

theorem pyRound_le_floor_add_one {α : Type} [LinearOrderedField α]
    [FloorRing α] (x : α) : pyRound x ≤ ⌊x⌋ + 1 := by
  simp only [pyRound]
  split_ifs <;> omega

theorem floor_le_pyRound {α : Type} [LinearOrderedField α] [FloorRing α]
    (x : α) : ⌊x⌋ ≤ pyRound x := by
  simp only [pyRound]
  split_ifs <;> omega

theorem pyRound_zero {α : Type} [LinearOrderedField α] [FloorRing α] :
    pyRound (0 : α) = 0 := by
  simp only [pyRound]
  rw [Int.floor_zero]
  norm_num

theorem pyRound_lt_of_add_two_le {α : Type} [LinearOrderedField α]
    [FloorRing α] (x y : α) (h : x + 2 ≤ y) : pyRound x < pyRound y := by
  have h1 : pyRound x ≤ ⌊x⌋ + 1 := pyRound_le_floor_add_one x
  have h2 : ⌊y⌋ ≤ pyRound y := floor_le_pyRound y
  have hcast : ((2 : ℤ) : α) = 2 := by norm_num
  have h4 : ⌊x + (2 : α)⌋ = ⌊x⌋ + 2 := by
    rw [← hcast, Int.floor_add_int]
  have h3 : ⌊x⌋ + 2 ≤ ⌊y⌋ := by
    rw [← h4]
    exact Int.floor_mono h
  omega

theorem havMiles_self_coords (lats lons : ℕ → ℝ) (i j : ℕ)
    (hla : lats i = lats j) (hlo : lons i = lons j) :
    havMiles lats lons i j = 0 := by
  simp only [havMiles]
  rw [hla, hlo]
  simp [atan2, Real.sqrt_one]

/-- C7 amended: for every `speed_mph ≥ 1e-6` and distinct sites i, j the
computed travel duration equals `round(miles / speed_mph * 60)` with miles
the haversine distance at Earth radius 3958.7613 mi (the source divides by
`max(1e-6, speed_mph)`, which equals `speed_mph` in this range); and two
sites at identical coordinates yield 0 miles and 0 minutes. -/
theorem claim7_travel_formula (speed : ℝ) (hsp : (0.000001 : ℝ) ≤ speed)
    (lats lons : ℕ → ℝ) (i j : ℕ) :
    (i ≠ j → travelMin speed lats lons i j =
      pyRound (havMiles lats lons i j / speed * 60)) ∧
    (lats i = lats j → lons i = lons j →
      havMiles lats lons i j = 0 ∧ travelMin speed lats lons i j = 0) := by
  have hmax : max (0.000001 : ℝ) speed = speed := max_eq_right hsp
  constructor
  · intro hij
    unfold travelMin
    rw [if_neg hij, hmax]
  · intro hla hlo
    have h0 := havMiles_self_coords lats lons i j hla hlo
    refine ⟨h0, ?_⟩
    unfold travelMin
    by_cases hij : i = j
    · rw [if_pos hij]
    · rw [if_neg hij, hmax, h0, zero_div, zero_mul, pyRound_zero]

/-- Witness for the amended C7: two distinct sites at identical
coordinates, speed 1 mph. -/
theorem claim7_witness :
    havMiles (fun _ => (0 : ℝ)) (fun _ => (0 : ℝ)) 0 1 = 0 ∧
    travelMin 1 (fun _ => (0 : ℝ)) (fun _ => (0 : ℝ)) 0 1 = 0 :=
  (claim7_travel_formula 1 (by norm_num) (fun _ => (0 : ℝ))
    (fun _ => (0 : ℝ)) 0 1).2 rfl rfl

/-- Helper: the haversine distance between (0, 0) and (0, 180) — two
antipodal points on the equator — is exactly (Earth radius) * pi miles. -/
theorem hav_antipodal :
    havMiles (fun _ => (0 : ℝ)) (fun n => 180 * (n : ℝ)) 0 1 =
      3958.7613 * Real.pi := by
  simp only [havMiles]
  norm_num
  have e2 : (180 : ℝ) * (Real.pi / 180) / 2 = Real.pi / 2 := by ring
  rw [e2, Real.sin_pi_div_two]
  norm_num
  simp only [atan2]
  norm_num
  ring

/-- C7 counterexample: the claim quantifies over every `speed_mph > 0`,
but for `0 < speed_mph < 1e-6` the source divides by the clamp
`max(1e-6, speed_mph) = 1e-6` rather than by `speed_mph`.  At speed 1e-7
between antipodal equator points the two roundings differ. -/
theorem claim7_counterexample :
    (0 : ℝ) < 0.0000001 ∧
    travelMin 0.0000001 (fun _ => (0 : ℝ)) (fun n => 180 * (n : ℝ)) 0 1 ≠
      pyRound (havMiles (fun _ => (0 : ℝ)) (fun n => 180 * (n : ℝ)) 0 1 /
        (0.0000001 : ℝ) * 60) := by
  constructor
  · norm_num
  · unfold travelMin
    rw [if_neg (show ¬ (0 : ℕ) = 1 by decide)]
    rw [hav_antipodal]
    have hmax : max (0.000001 : ℝ) 0.0000001 = 0.000001 := by
      rw [max_eq_left]
      norm_num
    rw [hmax]
    apply ne_of_lt
    apply pyRound_lt_of_add_two_le
    have hpi : (3 : ℝ) < Real.pi := Real.pi_gt_three
    have hx : (3958.7613 : ℝ) * Real.pi / 0.000001 * 60 =
        237525678000 * Real.pi := by ring
    have hy : (3958.7613 : ℝ) * Real.pi / 0.0000001 * 60 =
        2375256780000 * Real.pi := by ring
    rw [hx, hy]
    nlinarith [hpi]

/-! ### Claim C8: comma join/split round trip at the character level -/

theorem splitCommaChars_ne_nil (l : List Char) : splitCommaChars l ≠ [] := by
  induction l with
  | nil => simp [splitCommaChars]
  | cons c cs ih =>
    simp only [splitCommaChars]
    by_cases hc : c = ','
    · simp [hc]
    · rw [if_neg hc]
      cases hsc : splitCommaChars cs with
      | nil => exact absurd hsc ih
      | cons g gs => simp

theorem splitCommaChars_no_comma (g : List Char) (h : ',' ∉ g) :
    splitCommaChars g = [g] := by
  induction g with
  | nil => rfl
  | cons c cs ih =>
    have hc : ¬ c = ',' := fun hcc => h (hcc ▸ List.mem_cons_self c cs)
    have hcs : ',' ∉ cs := fun hmem => h (List.mem_cons_of_mem c hmem)
    simp only [splitCommaChars, ih hcs]
    rw [if_neg hc]
    rfl

theorem splitCommaChars_append_comma (g rest : List Char) (h : ',' ∉ g) :
    splitCommaChars (g ++ ',' :: rest) = g :: splitCommaChars rest := by
  induction g with
  | nil =>
    simp [splitCommaChars]
  | cons c cs ih =>
    have hc : ¬ c = ',' := fun hcc => h (hcc ▸ List.mem_cons_self c cs)
    have hcs : ',' ∉ cs := fun hmem => h (List.mem_cons_of_mem c hmem)
    rw [List.cons_append]
    simp only [splitCommaChars]
    rw [if_neg hc, ih hcs]
    rfl

theorem splitCommaChars_joinCommaChars (ids : List (List Char))
    (hne : ids ≠ []) (hnc : ∀ g ∈ ids, ',' ∉ g) :
    splitCommaChars (joinCommaChars ids) = ids := by
  induction ids with
  | nil => exact absurd rfl hne
  | cons g rest ih =>
    cases rest with
    | nil =>
      show splitCommaChars (joinCommaChars [g]) = [g]
      rw [show joinCommaChars [g] = g from rfl]
      exact splitCommaChars_no_comma g (hnc g (List.mem_cons_self g []))
    | cons g2 r2 =>
      rw [show joinCommaChars (g :: g2 :: r2) =
        g ++ ',' :: joinCommaChars (g2 :: r2) from rfl]
      rw [splitCommaChars_append_comma g _ (hnc g (List.mem_cons_self g _))]
      rw [ih (by simp) (fun x hx => hnc x (List.mem_cons_of_mem g hx))]

theorem dropWhile_eq_self_of_no_match (p : Char → Bool) (l : List Char)
    (h : ∀ c ∈ l, p c = false) : l.dropWhile p = l := by
  cases l with
  | nil => rfl
  | cons c cs =>
    rw [List.dropWhile_cons, if_neg]
    rw [h c (List.mem_cons_self c cs)]
    simp

theorem pyStripChars_eq_self (l : List Char)
    (h : ∀ c ∈ l, isPySpace c = false) : pyStripChars l = l := by
  unfold pyStripChars
  rw [dropWhile_eq_self_of_no_match isPySpace l h]
  rw [dropWhile_eq_self_of_no_match isPySpace l.reverse
    (fun c hc => h c (List.mem_reverse.1 hc))]
  exact List.reverse_reverse l

theorem string_mk_data (s : String) : (⟨s.data⟩ : String) = s := by
  cases s
  rfl

/-- The split of line 968 is a strict left inverse of the join of line 925
when every id is non-empty, comma-free and whitespace-trimmed. -/
theorem splitSeqStr_joinSeqStr (ids : List String)
    (h : ∀ s ∈ ids, s.data ≠ [] ∧ ',' ∉ s.data ∧
      pyStripChars s.data = s.data) :
    splitSeqStr (joinSeqStr ids) = ids := by
  cases ids with
  | nil => rfl
  | cons s0 rest =>
    unfold splitSeqStr joinSeqStr
    rw [show (String.mk (joinCommaChars ((s0 :: rest).map String.data))).data
      = joinCommaChars ((s0 :: rest).map String.data) from rfl]
    rw [splitCommaChars_joinCommaChars ((s0 :: rest).map String.data)
      (by simp)
      (by
        intro g hg
        rw [List.mem_map] at hg
        obtain ⟨s, hs, rfl⟩ := hg
        exact (h s hs).2.1)]
    have hmap1 : ((s0 :: rest).map String.data).map pyStripChars =
        (s0 :: rest).map String.data := by
      rw [List.map_map]
      apply List.map_congr_left
      intro s hs
      exact (h s hs).2.2
    rw [hmap1]
    have hfil : (((s0 :: rest).map String.data).filter
        (fun g => !g.isEmpty)) = (s0 :: rest).map String.data := by
      rw [List.filter_eq_self]
      intro g hg
      rw [List.mem_map] at hg
      obtain ⟨s, hs, rfl⟩ := hg
      simpa [List.isEmpty_iff] using (h s hs).1
    rw [hfil, List.map_map]
    have : (fun g => (⟨g⟩ : String)) ∘ String.data = id := by
      funext s
      exact string_mk_data s
    rw [this, List.map_id]

/-! ### Numeral round trip: Python str(int) then int(str) -/

theorem digitChar_not_space (d : ℕ) : isPySpace (digitChar d) = false := by
  unfold digitChar
  split <;> decide

theorem digitChar_ne_signs (d : ℕ) :
    digitChar d ≠ '-' ∧ digitChar d ≠ '+' ∧ digitChar d ≠ ',' := by
  unfold digitChar
  split <;> exact ⟨by decide, by decide, by decide⟩

theorem digitVal_digitChar (d : ℕ) (h : d < 10) :
    digitVal (digitChar d) = some d := by
  interval_cases d <;> decide

theorem natToChars_mem (n : ℕ) : ∀ c ∈ natToChars n, ∃ d, c = digitChar d := by
  induction n using Nat.strong_induction_on with
  | _ n ih =>
    rw [natToChars]
    by_cases h : n < 10
    · rw [dif_pos h]
      intro c hc
      simp only [List.mem_singleton] at hc
      exact ⟨n, hc⟩
    · rw [dif_neg h]
      intro c hc
      rw [List.mem_append] at hc
      cases hc with
      | inl hc => exact ih (n / 10) (Nat.div_lt_self (by omega) (by omega)) c hc
      | inr hc =>
        simp only [List.mem_singleton] at hc
        exact ⟨n % 10, hc⟩

theorem natToChars_ne_nil (n : ℕ) : natToChars n ≠ [] := by
  rw [natToChars]
  by_cases h : n < 10
  · rw [dif_pos h]
    simp
  · rw [dif_neg h]
    simp

theorem parseDigitsAux_append (a b : List Char) : ∀ acc : ℕ,
    parseDigitsAux (a ++ b) acc =
      match parseDigitsAux a acc with
      | some v => parseDigitsAux b v
      | none => none := by
  induction a with
  | nil => intro acc; rfl
  | cons c cs ih =>
    intro acc
    simp only [List.cons_append, parseDigitsAux]
    cases digitVal c with
    | none => rfl
    | some d => exact ih (acc * 10 + d)

theorem parseDigitsAux_natToChars (n : ℕ) : ∀ acc : ℕ,
    parseDigitsAux (natToChars n) acc =
      some (acc * 10 ^ (natToChars n).length + n) := by
  induction n using Nat.strong_induction_on with
  | _ n ih =>
    intro acc
    rw [natToChars]
    by_cases h : n < 10
    · rw [dif_pos h]
      simp only [parseDigitsAux, digitVal_digitChar n h]
      simp
    · rw [dif_neg h]
      rw [parseDigitsAux_append]
      rw [ih (n / 10) (Nat.div_lt_self (by omega) (by omega)) acc]
      simp only [parseDigitsAux, digitVal_digitChar (n % 10) (by omega)]
      rw [List.length_append]
      simp only [List.length_singleton]
      rw [pow_succ]
      congr 1
      have hdm : n / 10 * 10 + n % 10 = n := by omega
      calc (acc * 10 ^ (natToChars (n / 10)).length + n / 10) * 10 + n % 10
          = acc * (10 ^ (natToChars (n / 10)).length * 10) +
            (n / 10 * 10 + n % 10) := by ring
        _ = acc * (10 ^ (natToChars (n / 10)).length * 10) + n := by rw [hdm]

theorem parsePyIntChars_cons (c : Char) (t : List Char) :
    parsePyIntChars (c :: t) =
      if c = '-' then (parseDigitsList t).map (fun n => -(n : ℤ))
      else if c = '+' then (parseDigitsList t).map (fun n => (n : ℤ))
      else (parseDigitsList (c :: t)).map (fun n => (n : ℤ)) := rfl

theorem parsePyInt_natToChars (n : ℕ) :
    parsePyInt ⟨natToChars n⟩ = some (n : ℤ) := by
  unfold parsePyInt
  rw [show (String.mk (natToChars n)).data = natToChars n from rfl]
  rw [pyStripChars_eq_self (natToChars n) (fun c hc => by
    obtain ⟨d, rfl⟩ := natToChars_mem n c hc
    exact digitChar_not_space d)]
  obtain ⟨c, t, hct⟩ := List.exists_cons_of_ne_nil (natToChars_ne_nil n)
  obtain ⟨d, hd⟩ := natToChars_mem n c (by rw [hct]; exact List.mem_cons_self c t)
  have hsig := digitChar_ne_signs d
  rw [hct, parsePyIntChars_cons]
  rw [if_neg (by rw [hd]; exact hsig.1), if_neg (by rw [hd]; exact hsig.2.1)]
  rw [← hct]
  unfold parseDigitsList
  rw [if_neg (by simp [natToChars_ne_nil n])]
  rw [parseDigitsAux_natToChars n 0]
  simp

/-! ### Claim C8: save/load round trip at the record level -/

theorem parseRecordRow_save (st cl : String) (v : ℕ) (seq : List String)
    (mode : String) (speed service : ℚ) (solvedAt : String)
    (hseq : ∀ s ∈ seq, s.data ≠ [] ∧ ',' ∉ s.data ∧
      pyStripChars s.data = s.data) :
    parseRecordRow ⟨st, cl, ⟨natToChars v⟩, ⟨natToChars seq.length⟩,
      joinSeqStr seq, mode, speed, service, solvedAt⟩ =
      some (st, cl, (v : ℤ), seq) := by
  unfold parseRecordRow
  simp only [parsePyInt_natToChars]
  rw [splitSeqStr_joinSeqStr seq hseq]

theorem loadRows_save (mode : String) (speed service : ℚ)
    (solvedAt : String) :
    ∀ rows : List (String × String × ℕ × List String),
    (∀ r ∈ rows, ∀ s ∈ r.2.2.2, s.data ≠ [] ∧ ',' ∉ s.data ∧
      pyStripChars s.data = s.data) →
    loadRows (saveSolution rows mode speed service solvedAt) =
      some (rows.map (fun r => (r.1, r.2.1, ((r.2.2.1 : ℕ) : ℤ), r.2.2.2))) := by
  intro rows
  induction rows with
  | nil => intro _; rfl
  | cons r rest ih =>
    intro hall
    unfold saveSolution
    simp only [List.map_cons]
    simp only [loadRows]
    rw [parseRecordRow_save r.1 r.2.1 r.2.2.1 r.2.2.2 mode speed service
      solvedAt (hall r (List.mem_cons_self r rest))]
    have ihr := ih (fun x hx => hall x (List.mem_cons_of_mem r hx))
    unfold saveSolution at ihr
    rw [ihr]

theorem loadSolution_some (state : String) (recs : List SolvedRecord) :
    loadSolution state (some recs) = loadSolutionFromRecs state recs := rfl

theorem loadSolutionFromRecs_none (state : String) (recs : List SolvedRecord)
    (h : loadRows recs = none) : loadSolutionFromRecs state recs = none := by
  unfold loadSolutionFromRecs
  rw [h]

theorem loadSolutionFromRecs_cons (state : String) (r0 : SolvedRecord)
    (rest : List SolvedRecord) (x : String × String × ℤ × List String)
    (xs : List (String × String × ℤ × List String))
    (h : loadRows (r0 :: rest) = some (x :: xs)) :
    loadSolutionFromRecs state (r0 :: rest) =
      some ⟨state, r0.mode, x :: xs, r0.speed, r0.service, r0.solvedAt⟩ := by
  unfold loadSolutionFromRecs
  rw [h]

/-- C8 amended: saving a solution and reloading it reproduces the ordered
(cluster_label, ordered site-id list) pairs and the recorded parameters
(mode, speed, service hours, timestamp, recovered from the first record) —
provided the solution has at least one route (the source only saves
non-empty solves) and every site id is non-empty, contains no comma, and
carries no leading/trailing whitespace.  The loaded rows are the saved rows
verbatim (vehicle indices re-read as integers). -/
theorem claim8_roundtrip (state mode : String) (speed service : ℚ)
    (solvedAt : String) (allRows : List (String × String × ℕ × List String))
    (hne : allRows ≠ [])
    (hids : ∀ r ∈ allRows, ∀ s ∈ r.2.2.2, s.data ≠ [] ∧ ',' ∉ s.data ∧
      pyStripChars s.data = s.data) :
    loadSolution state
        (some (saveSolution allRows mode speed service solvedAt)) =
      some ⟨state, mode,
        allRows.map (fun r => (r.1, r.2.1, ((r.2.2.1 : ℕ) : ℤ), r.2.2.2)),
        speed, service, solvedAt⟩ := by
  obtain ⟨r0, rest, rfl⟩ := List.exists_cons_of_ne_nil hne
  have hload := loadRows_save mode speed service solvedAt (r0 :: rest) hids
  have hsave : saveSolution (r0 :: rest) mode speed service solvedAt =
      (⟨r0.1, r0.2.1, ⟨natToChars r0.2.2.1⟩, ⟨natToChars r0.2.2.2.length⟩,
        joinSeqStr r0.2.2.2, mode, speed, service, solvedAt⟩ : SolvedRecord) ::
      saveSolution rest mode speed service solvedAt := by
    unfold saveSolution
    rw [List.map_cons]
  rw [loadSolution_some, hsave]
  rw [loadSolutionFromRecs_cons state _ _
    (r0.1, r0.2.1, ((r0.2.2.1 : ℕ) : ℤ), r0.2.2.2)
    (rest.map (fun r => (r.1, r.2.1, ((r.2.2.1 : ℕ) : ℤ), r.2.2.2)))
    (by rw [← hsave, hload, List.map_cons])]
  rw [List.map_cons]

/-- Witness for the amended C8 at a concrete two-id solution. -/
theorem claim8_witness :
    loadSolution "S"
        (some (saveSolution [( "S", "0", 3, [ "a", "b"])] "clusters" 50 4 "t")) =
      some ⟨ "S", "clusters", [( "S", "0", (3 : ℤ), [ "a", "b"])], 50, 4, "t"⟩ :=
  claim8_roundtrip "S" "clusters" 50 4 "t" [( "S", "0", 3, [ "a", "b"])]
    (by decide) (by decide)

/-- C8 counterexample: a site id containing a comma breaks the round trip.
The id `a,b` is saved as the comma-joined sequence `a,b` and reloads as the
two ids `a`, `b`: the reloaded (cluster_label, id-list) pairs differ from
the saved ones, refuting the law for arbitrary Solutions. -/
theorem claim8_counterexample :
    loadSolution "S"
        (some (saveSolution [( "S", "0", 0, [ "a,b"])] "clusters" 50 4 "t")) =
      some ⟨ "S", "clusters", [( "S", "0", (0 : ℤ), [ "a", "b"])], 50, 4, "t"⟩ ∧
    ([ "a", "b"] : List String) ≠ [ "a,b"] := by
  constructor
  · have hsave : saveSolution [( "S", "0", 0, [ "a,b"])] "clusters" 50 4 "t" =
        [⟨ "S", "0", ⟨natToChars 0⟩, ⟨natToChars 1⟩, joinSeqStr [ "a,b"],
          "clusters", 50, 4, "t"⟩] := by
      unfold saveSolution
      rw [List.map_cons, List.map_nil]
      rfl
    have hrow : parseRecordRow ⟨ "S", "0", ⟨natToChars 0⟩, ⟨natToChars 1⟩,
        joinSeqStr [ "a,b"], "clusters", 50, 4, "t"⟩ =
        some ( "S", "0", (0 : ℤ), [ "a", "b"]) := by
      unfold parseRecordRow
      simp only [parsePyInt_natToChars]
      rw [show splitSeqStr (joinSeqStr [ "a,b"]) = [ "a", "b"] from by decide]
      norm_num
    have hload : loadRows [⟨ "S", "0", ⟨natToChars 0⟩, ⟨natToChars 1⟩,
        joinSeqStr [ "a,b"], "clusters", 50, 4, "t"⟩] =
        some [( "S", "0", (0 : ℤ), [ "a", "b"])] := by
      simp only [loadRows, hrow]
    rw [loadSolution_some, hsave,
      loadSolutionFromRecs_cons "S" _ [] ( "S", "0", (0 : ℤ), [ "a", "b"]) []
        hload]
  · decide

/-! ### Claim C9 (corrected): load failure handling -/

theorem loadRows_none_of_bad (recs : List SolvedRecord) (r : SolvedRecord)
    (hmem : r ∈ recs) (hbad : parseRecordRow r = none) :
    loadRows recs = none := by
  induction recs with
  | nil => cases hmem
  | cons r0 rest ih =>
    rw [List.mem_cons] at hmem
    cases hmem with
    | inl heq =>
      subst heq
      simp only [loadRows, hbad]
    | inr hmem =>
      simp only [loadRows, ih hmem]
      cases parseRecordRow r0 <;> rfl

/-- C9 amended: a missing solution file yields `none` ("no solution
available") rather than an exception — but corrupt rows are NOT
individually skipped: any single row whose `vehicle`/`stops` fields fail
to parse aborts the whole load and yields `none`, discarding the
well-formed rows too (the `try` of lines 953-991 wraps the entire loop). -/
theorem claim9_load_failures :
    (∀ state, loadSolution state none = none) ∧
    (∀ state recs r, r ∈ recs → parseRecordRow r = none →
      loadSolution state (some recs) = none) := by
  constructor
  · intro state
    rfl
  · intro state recs r hmem hbad
    rw [loadSolution_some]
    exact loadSolutionFromRecs_none state recs
      (loadRows_none_of_bad recs r hmem hbad)

/-- C9 counterexample: a file with one well-formed row and one row whose
`vehicle` field is the non-numeral `x` loads as `none` — the good row is
not kept, refuting "a single bad row never aborts the whole load". -/
theorem claim9_counterexample :
    loadSolution "S" (some
      [⟨ "S", "0", "0", "1", "a", "clusters", 50, 4, "t"⟩,
       ⟨ "S", "1", "x", "1", "b", "clusters", 50, 4, "t"⟩]) = none ∧
    parseRecordRow ⟨ "S", "0", "0", "1", "a", "clusters", 50, 4, "t"⟩ =
      some ( "S", "0", 0, [ "a"]) := by
  constructor
  · decide
  · decide

/-- Witness for the amended C9: the missing-file case and a concrete
one-bad-row file. -/
theorem claim9_witness :
    loadSolution "S" none = none ∧
    loadSolution "S"
      (some [⟨ "S", "1", "x", "1", "b", "clusters", 50, 4, "t"⟩]) = none :=
  ⟨claim9_load_failures.1 "S",
    claim9_load_failures.2 "S" _ ⟨ "S", "1", "x", "1", "b", "clusters", 50, 4, "t"⟩
      (List.mem_singleton.2 rfl) (by decide)⟩

/-! ### Claim C10: the per-cluster row filter -/

theorem filterCluster_ok (parse : String → Option ℚ) (ci : ℕ) (c : ℤ) :
    ∀ (rows l : List (List String)),
    filterCluster parse ci c rows = .ok l →
    l = rows.filter (includeRow parse ci c) := by
  intro rows
  induction rows with
  | nil =>
    intro l h
    simp only [filterCluster] at h
    cases h
    rfl
  | cons row rest ih =>
    intro l h
    simp only [filterCluster] at h
    rw [List.filter_cons]
    by_cases hlt : ci < row.length
    · rw [dif_pos hlt] at h
      by_cases hcell : row.get ⟨ci, hlt⟩ = ""
      · rw [if_pos hcell] at h
        have hinc : includeRow parse ci c row = false := by
          unfold includeRow
          rw [dif_pos hlt, if_pos hcell]
        rw [hinc]
        simp only [Bool.false_eq_true, if_neg]
        exact ih l h
      · rw [if_neg hcell] at h
        cases hp : parse (row.get ⟨ci, hlt⟩) with
        | none =>
          rw [hp] at h
          cases h
        | some q =>
          rw [hp] at h
          cases hrest : filterCluster parse ci c rest with
          | error e =>
            rw [hrest] at h
            cases h
          | ok l2 =>
            rw [hrest] at h
            have hl := Except.ok.inj h
            have hinc : includeRow parse ci c row = decide (qTrunc q = c) := by
              unfold includeRow
              rw [dif_pos hlt, if_neg hcell, hp]
            rw [← hl, hinc, ih l2 hrest]
            by_cases hq : qTrunc q = c
            · simp [hq]
            · simp [hq]
    · rw [dif_neg hlt] at h
      have hinc : includeRow parse ci c row = false := by
        unfold includeRow
        rw [dif_neg hlt]
      rw [hinc]
      simp only [Bool.false_eq_true, if_neg]
      exact ih l h

/-- C10: the rows solved for cluster c are exactly the CSV rows whose
cluster_id cell exists, is non-empty, and parses to a float that truncates
to the integer c (`int(float(cell)) == c`); in particular a row whose
cluster_id cell is the empty string is silently excluded and can never
appear among the solved sites. -/
theorem claim10_cluster_filter (parse : String → Option ℚ) (ci : ℕ) (c : ℤ)
    (rows l : List (List String))
    (hok : filterCluster parse ci c rows = .ok l) :
    l = rows.filter (includeRow parse ci c) ∧
    (∀ row, includeRow parse ci c row = true ↔
      ∃ h : ci < row.length, row.get ⟨ci, h⟩ ≠ "" ∧
        ∃ q, parse (row.get ⟨ci, h⟩) = some q ∧ qTrunc q = c) ∧
    (∀ row, (∀ h : ci < row.length, row.get ⟨ci, h⟩ = "") → row ∉ l) := by
  have hfil := filterCluster_ok parse ci c rows l hok
  have hchar : ∀ row, includeRow parse ci c row = true ↔
      ∃ h : ci < row.length, row.get ⟨ci, h⟩ ≠ "" ∧
        ∃ q, parse (row.get ⟨ci, h⟩) = some q ∧ qTrunc q = c := by
    intro row
    unfold includeRow
    by_cases hlt : ci < row.length
    · rw [dif_pos hlt]
      by_cases hcell : row.get ⟨ci, hlt⟩ = ""
      · rw [if_pos hcell]
        constructor
        · intro hfalse
          cases hfalse
        · rintro ⟨h, hne, -⟩
          exact absurd hcell hne
      · rw [if_neg hcell]
        cases hp : parse (row.get ⟨ci, hlt⟩) with
        | none =>
          constructor
          · intro hfalse
            cases hfalse
          · rintro ⟨h, -, q, hq, -⟩
            rw [hp] at hq
            cases hq
        | some q =>
          constructor
          · intro htrue
            rw [decide_eq_true_eq] at htrue
            exact ⟨hlt, hcell, q, hp, htrue⟩
          · rintro ⟨h, -, q2, hq2, htr⟩
            rw [hp] at hq2
            cases hq2
            rw [decide_eq_true_eq]
            exact htr
    · rw [dif_neg hlt]
      constructor
      · intro hfalse
        cases hfalse
      · rintro ⟨h, -⟩
        exact absurd h hlt
  refine ⟨hfil, hchar, ?_⟩
  intro row hempty hmem
  rw [hfil, List.mem_filter] at hmem
  have htrue := hmem.2
  rw [hchar row] at htrue
  obtain ⟨h, hne, -⟩ := htrue
  exact hne (hempty h)

/-- Witness for C10: cluster 2, one matching row, one empty-cell row
(excluded). -/
theorem claim10_witness :
    filterCluster (fun s => if s = "2" then some (2 : ℚ) else none) 0 2
      [[ "2"], [ ""]] = .ok [[ "2"]] ∧
    ([[ "2"]] : List (List String)) = [[ "2"], [ ""]].filter
      (includeRow (fun s => if s = "2" then some (2 : ℚ) else none) 0 2) ∧
    (([ ""] : List String) ∉ ([[ "2"]] : List (List String))) := by
  have hok : filterCluster (fun s => if s = "2" then some (2 : ℚ) else none)
      0 2 [[ "2"], [ ""]] = .ok [[ "2"]] := by decide
  have h := claim10_cluster_filter
    (fun s => if s = "2" then some (2 : ℚ) else none) 0 2 [[ "2"], [ ""]]
    [[ "2"]] hok
  exact ⟨hok, h.1, h.2.2 [ ""] (fun _ => rfl)⟩

end Vrptw
